import Mathlib

/-!
# Product lookup service: catalog generation and the lookup handler

A shallow embedding of `opt_2/data.go` (`GenerateProduct`,
`generateAndSetProductToRedis`) and `opt_4/main.go` (`codeRegex`,
`handleProduct`, `findProduct`), followed by the properties proved about them.

Conventions of the embedding:

* Go strings are `String`, the sequence of characters the regexp engine and
  the formatter read; `fmt.Sprintf` with `%s`/`%d` is concatenation with the
  decimal rendering `Nat.repr` (the integers formatted here are never negative
  and stay far below the 64-bit range).
* The map `map[string]*Product` is an association list with at most one entry
  per key when built through `mapSet`; a stored `none` is a nil pointer.
* Package-level variables (`products`, `buf`) are threaded explicitly.
* A run-time panic (nil dereference) is the result `none`.
* Calls are sequential: one call of the handler runs to completion before the
  next one starts.
-/

namespace ProductLookup

/-! ## Data model -/

/-- Modelled from the spec: the declaration of the record type `Product` is not
among the source files; it has the two text fields `Code` and `Name` that
`data.go` and `main.go` read and write. -/
structure Product where
  Code : String
  Name : String
deriving DecidableEq

/-- The zero value `Product{}`. -/
def Product.zero : Product := ⟨"", ""⟩

/-- The type `map[string]*Product`: key, then the pointer stored under it
(`none` for a nil pointer). -/
abbrev Catalog := List (String × Option Product)

/-- The two-result read `v, ok := m[k]`: `none` when `ok` is false. -/
def mapGet : Catalog → String → Option (Option Product)
  | [], _ => none
  | (k', v) :: rest, k => if k' = k then some v else mapGet rest k

/-- The assignment `m[k] = v`: replaces the entry under `k` or adds one. -/
def mapSet : Catalog → String → Option Product → Catalog
  | [], k, v => [(k, v)]
  | (k', v') :: rest, k, v =>
    if k' = k then (k, v) :: rest else (k', v') :: mapSet rest k v

/-- The keys of a map. -/
def mapKeys (m : Catalog) : List String := m.map Prod.fst

/-! ## Catalog generation (`opt_2/data.go`) -/

/-- The slice `ch` of `generateAndSetProductToRedis`. -/
def ch : List String :=
  ["A", "B", "C", "D", "E", "F", "G", "H", "I", "J", "K", "L", "M",
   "N", "O", "P", "Q", "R", "S", "T", "U", "V", "W", "X", "Y", "Z"]

/-- The call `fmt.Sprintf("%s%s%d%d", c, c2, i, j)`. -/
def sprintfCode (c c2 : String) (i j : Nat) : String :=
  c ++ c2 ++ Nat.repr i ++ Nat.repr j

/-- The call `fmt.Sprintf("Product %d", no)`. -/
def sprintfName (no : Nat) : String :=
  "Product " ++ Nat.repr no

/-- The four nested loops of `generateAndSetProductToRedis`, with the loop
body left open: it receives `c`, `c2`, `i`, `j` and the current state. -/
def genLoops {σ : Type} (body : String → String → Nat → Nat → σ → σ) (init : σ) : σ :=
  ch.foldl (fun st c =>
    ch.foldl (fun st c2 =>
      (List.range 10).foldl (fun st i =>
        (List.range 10).foldl (fun st j => body c c2 i j st) st) st) st) init

/-- The loop body: builds the product, stores it under its code, increments
`no`. The state is the map `products` and the counter `no`. -/
def genBody (c c2 : String) (i j : Nat) (st : Catalog × Nat) : Catalog × Nat :=
  let p : Product := ⟨sprintfCode c c2 i j, sprintfName st.2⟩
  (mapSet st.1 p.Code (some p), st.2 + 1)

/-- The function `generateAndSetProductToRedis`, acting on the package-level
map `products`; `no` starts at 0. -/
def generateAndSetProductToRedis (products : Catalog) : Catalog :=
  (genLoops genBody (products, 0)).1

/-- The function `GenerateProduct`: `products = make(map[string]*Product)`, then
the generation. The argument is the value of `products` before the call. -/
def GenerateProduct (_products : Catalog) : Catalog :=
  generateAndSetProductToRedis []

/-- The keys written by the generation, in the order the loops write them:
the same loops with a body that only records `p.Code`. -/
def generatedCodes : List String :=
  genLoops (fun c c2 i j acc => acc ++ [sprintfCode c c2 i j]) []

/-! ## The shape check (`codeRegex`) -/

/-- The fragment of regular-expression syntax that `codeRegex` uses. Without
the multi-line flag `^` and `$` match only at the beginning and at the end of
the text. -/
inductive Regex where
  | beginText : Regex
  | endText : Regex
  | charRange (lo hi : Char) : Regex
  | cat (a b : Regex) : Regex
  | times (r : Regex) (n : Nat) : Regex

/-- Runs `f` `n` times in sequence, collecting every way to do so. -/
def iterate {σ : Type} (f : σ → List σ) : Nat → σ → List σ
  | 0, s => [s]
  | n + 1, s => (f s).flatMap (iterate f n)

/-- All ways for the expression to match a prefix of the remaining input. A
position is the flag "at the beginning of the text" and the input left. -/
def Regex.run : Regex → Bool × List Char → List (Bool × List Char)
  | .beginText, p => if p.1 then [p] else []
  | .endText, p => if p.2.isEmpty then [p] else []
  | .charRange _ _, (_, []) => []
  | .charRange lo hi, (_, c :: rest) => if lo ≤ c ∧ c ≤ hi then [(false, rest)] else []
  | .cat a b, p => (a.run p).flatMap b.run
  | .times r n, p => iterate r.run n p

/-- The method `MatchString`: an unanchored search, a match may start at
any offset of the text. -/
def MatchString (re : Regex) (s : String) : Bool :=
  (List.range (s.data.length + 1)).any fun i =>
    !(re.run (i == 0, s.data.drop i)).isEmpty

/-- The pattern `^[A-Z]{2}[0-9]{2}$`. -/
def codeRegex : Regex :=
  .cat .beginText
    (.cat (.times (.charRange 'A' 'Z') 2)
      (.cat (.times (.charRange '0' '9') 2) .endText))

/-! ## The handler (`opt_4/main.go`) -/

/-- The part of `*http.Request` the handler reads: the form values, in order. -/
structure Request where
  form : List (String × String)

/-- The method `FormValue`: the first value under `key`, the empty string
when the request has none. -/
def Request.FormValue (r : Request) (key : String) : String :=
  match r.form.find? (fun kv => kv.1 = key) with
  | some kv => kv.2
  | none => ""

/-- What the handler does to its `http.ResponseWriter`.
`error msg code` records the call `http.Error(w, msg, code)`: a plain-text reply
with status `code` whose text is the message `msg`; how the library lays the
message out on the wire (it ends the line after it) is not modelled.
`ok header body` records the header entries set followed by `w.Write(body)`
with no status set before it, so that the status is `http.StatusOK`. -/
inductive Response where
  | error (msg : String) (code : Nat) : Response
  | ok (header : List (String × String)) (body : String) : Response
deriving DecidableEq

/-- The constant `http.StatusBadRequest`. -/
def StatusBadRequest : Nat := 400

/-- The constant `http.StatusOK`, the status of a reply whose first action is
a write. -/
def StatusOK : Nat := 200

/-- The status code of a reply. -/
def Response.status : Response → Nat
  | .error _ code => code
  | .ok _ _ => StatusOK

/-- The package-level variables the handler touches. -/
structure Globals where
  products : Catalog
  buf : String
deriving DecidableEq

/-- The function `findProduct`; `none` is the panic of dereferencing a nil
pointer stored in the map. -/
def findProduct (Products : Catalog) (code : String) : Option Product :=
  match mapGet Products code with
  | some (some v) => some v
  | some none => none
  | none => some Product.zero

/-- The function `handleProduct`: the reply written to `w` and the globals
after the call; `none` when `findProduct` panics. -/
def handleProduct (g : Globals) (r : Request) : Option (Response × Globals) :=
  let code := r.FormValue "code"
  if !MatchString codeRegex code then
    some (.error "code is invalid" StatusBadRequest, g)
  else
    match findProduct g.products code with
    | none => none
    | some result =>
      if result.Code = "" then
        some (.error "data not found" StatusBadRequest, g)
      else
        let header := [("Content-Type", "text/html; charset=utf-8")]
        let buf := ""
        let buf := buf ++ "<font size=\"10\">Product Code : "
        let buf := buf ++ result.Code
        let buf := buf ++ " Name :"
        let buf := buf ++ result.Name
        let buf := buf ++ "</font>"
        some (.ok header buf, ⟨g.products, buf⟩)

/-- A sequence of calls of `handleProduct` on the same globals, one per
request, as in the loop of `BenchmarkHandleProduct`: the replies in order and
the globals at the end; `none` when one of the calls panics. -/
def handleAll (g : Globals) : List Request → Option (List Response × Globals)
  | [] => some ([], g)
  | r :: rs =>
    match handleProduct g r with
    | none => none
    | some (resp, g1) =>
      match handleAll g1 rs with
      | none => none
      | some (resps, g2) => some (resp :: resps, g2)

/-! ## Auxiliary definitions used in the statements -/

/-- The one-letter string of the `k`-th capital letter (`k` from 0). -/
def letter (k : Nat) : String := String.singleton (Char.ofNat (65 + k))

/-- The code written at the `n`-th step of the generation (`n` from 0). -/
def codeAt (n : Nat) : String :=
  sprintfCode (letter (n / 2600)) (letter (n / 100 % 26)) (n / 10 % 10) (n % 10)

/-- The map entry written at the `n`-th step of the generation. -/
def entryAt (n : Nat) : String × Option Product :=
  (codeAt n, some ⟨codeAt n, sprintfName n⟩)

/-- The success body of the external interface for a code and a name. -/
def successBody (code name : String) : String :=
  "<font size=\"10\">Product Code : " ++ code ++ " Name :" ++ name ++ "</font>"

/-- The header of a success reply. -/
def successHeader : List (String × String) :=
  [("Content-Type", "text/html; charset=utf-8")]

/-- The value of a string of decimal digits. -/
def digitsValue (l : List Char) : Nat :=
  l.foldl (fun acc c => 10 * acc + (c.toNat - 48)) 0

/-- The shape of a code, in the words of the specification: exactly four
characters, two capital ASCII letters followed by two ASCII digits. -/
def IsCodeShape (s : String) : Prop :=
  ∃ a b c d : Char, s = String.mk [a, b, c, d] ∧
    ('A' ≤ a ∧ a ≤ 'Z') ∧ ('A' ≤ b ∧ b ≤ 'Z') ∧ ('0' ≤ c ∧ c ≤ '9') ∧ ('0' ≤ d ∧ d ≤ '9')

/-- The pattern of `codeRegex` with its two character classes left open. -/
def shapeRegex (lo1 hi1 lo2 hi2 : Char) : Regex :=
  .cat .beginText
    (.cat (.times (.charRange lo1 hi1) 2)
      (.cat (.times (.charRange lo2 hi2) 2) .endText))

/-! ## Loops -/

theorem foldl_congr_mem {σ α : Type} (f g : σ → α → σ) (l : List α)
    (h : ∀ x, x ∈ l → ∀ s, f s x = g s x) (s : σ) : l.foldl f s = l.foldl g s := by
  induction l generalizing s with
  | nil => rfl
  | cons x xs ih =>
    simp only [List.foldl_cons]
    rw [h x (List.mem_cons_self x xs) s]
    exact ih (fun y hy => h y (List.mem_cons_of_mem x hy)) _

theorem foldl_range_nest {σ : Type} (a b : Nat) (f : Nat → Nat → σ → σ) (g : Nat → σ → σ)
    (h : ∀ x, x < a → ∀ y, y < b → ∀ s, f x y s = g (x * b + y) s) (init : σ) :
    (List.range a).foldl (fun st x => (List.range b).foldl (fun st y => f x y st) st) init
      = (List.range (a * b)).foldl (fun st n => g n st) init := by
  induction a with
  | zero => simp
  | succ a ih =>
    have ih1 := ih (fun x hx => h x (Nat.lt_succ_of_lt hx))
    rw [List.range_succ, List.foldl_append, ih1, Nat.succ_mul, List.range_add,
      List.foldl_append, List.foldl_map]
    simp only [List.foldl_cons, List.foldl_nil]
    apply foldl_congr_mem
    intro y hy s
    exact h a (Nat.lt_succ_self a) y (List.mem_range.mp hy) s

theorem ch_eq : ch = (List.range 26).map letter := by decide

theorem genLoops_eq {σ : Type} (body : String → String → Nat → Nat → σ → σ) (init : σ) :
    genLoops body init
      = (List.range 67600).foldl
          (fun st n => body (letter (n / 2600)) (letter (n / 100 % 26)) (n / 10 % 10) (n % 10) st)
          init := by
  unfold genLoops
  rw [ch_eq]
  simp only [List.foldl_map]
  have hA : ∀ (c c2 : String) (st : σ),
      (List.range 10).foldl (fun st i =>
        (List.range 10).foldl (fun st j => body c c2 i j st) st) st
        = (List.range (10 * 10)).foldl (fun st n => body c c2 (n / 10) (n % 10) st) st := by
    intro c c2 st
    apply foldl_range_nest 10 10 (fun i j s => body c c2 i j s)
      (fun n s => body c c2 (n / 10) (n % 10) s)
    intro x _ y hy s
    have h1 : (x * 10 + y) / 10 = x := by omega
    have h2 : (x * 10 + y) % 10 = y := by omega
    simp only [h1, h2]
  simp only [hA]
  have hB : ∀ (c : String) (st : σ),
      (List.range 26).foldl (fun st k2 =>
        (List.range (10 * 10)).foldl
          (fun st n => body c (letter k2) (n / 10) (n % 10) st) st) st
        = (List.range (26 * (10 * 10))).foldl
            (fun st m => body c (letter (m / 100)) (m % 100 / 10) (m % 10) st) st := by
    intro c st
    apply foldl_range_nest 26 (10 * 10) (fun k2 n s => body c (letter k2) (n / 10) (n % 10) s)
      (fun m s => body c (letter (m / 100)) (m % 100 / 10) (m % 10) s)
    intro x _ y hy s
    have h1 : (x * (10 * 10) + y) / 100 = x := by omega
    have h2 : (x * (10 * 10) + y) % 100 / 10 = y / 10 := by omega
    have h3 : (x * (10 * 10) + y) % 10 = y % 10 := by omega
    simp only [h1, h2, h3]
  simp only [hB]
  have hC := foldl_range_nest 26 (26 * (10 * 10))
    (fun k1 m s => body (letter k1) (letter (m / 100)) (m % 100 / 10) (m % 10) s)
    (fun n s => body (letter (n / 2600)) (letter (n / 100 % 26)) (n / 10 % 10) (n % 10) s)
    (by
      intro x _ y hy s
      have h1 : (x * (26 * (10 * 10)) + y) / 2600 = x := by omega
      have h2 : (x * (26 * (10 * 10)) + y) / 100 % 26 = y / 100 := by omega
      have h3 : (x * (26 * (10 * 10)) + y) / 10 % 10 = y % 100 / 10 := by omega
      have h4 : (x * (26 * (10 * 10)) + y) % 10 = y % 10 := by omega
      simp only [h1, h2, h3, h4]) init
  exact hC

/-! ## Characters of a code -/

theorem repr_digit : ∀ i, i < 10 → Nat.repr i = String.singleton (Char.ofNat (48 + i)) := by
  decide

theorem upperChar_inj : ∀ a, a < 26 → ∀ b, b < 26 →
    Char.ofNat (65 + a) = Char.ofNat (65 + b) → a = b := by
  decide

theorem digitChar_inj : ∀ a, a < 10 → ∀ b, b < 10 →
    Char.ofNat (48 + a) = Char.ofNat (48 + b) → a = b := by
  decide

theorem upper_iff (c : Char) :
    ('A' ≤ c ∧ c ≤ 'Z') ↔ ∃ k, k < 26 ∧ c = Char.ofNat (65 + k) := by
  constructor
  · rintro ⟨h1, h2⟩
    have h1' : 65 ≤ c.toNat := h1
    have h2' : c.toNat ≤ 90 := h2
    refine ⟨c.toNat - 65, by omega, ?_⟩
    rw [show 65 + (c.toNat - 65) = c.toNat by omega, Char.ofNat_toNat]
  · rintro ⟨k, hk, rfl⟩
    exact (by decide : ∀ k, k < 26 →
      ('A' ≤ Char.ofNat (65 + k) ∧ Char.ofNat (65 + k) ≤ 'Z')) k hk

theorem digit_iff (c : Char) :
    ('0' ≤ c ∧ c ≤ '9') ↔ ∃ k, k < 10 ∧ c = Char.ofNat (48 + k) := by
  constructor
  · rintro ⟨h1, h2⟩
    have h1' : 48 ≤ c.toNat := h1
    have h2' : c.toNat ≤ 57 := h2
    refine ⟨c.toNat - 48, by omega, ?_⟩
    rw [show 48 + (c.toNat - 48) = c.toNat by omega, Char.ofNat_toNat]
  · rintro ⟨k, hk, rfl⟩
    exact (by decide : ∀ k, k < 10 →
      ('0' ≤ Char.ofNat (48 + k) ∧ Char.ofNat (48 + k) ≤ '9')) k hk

/-- The four characters of the code made of the letters with indices `a`,
`b` and the digits `i`, `j`. -/
theorem sprintfCode_chars (a b i j : Nat) (hi : i < 10) (hj : j < 10) :
    sprintfCode (letter a) (letter b) i j
      = String.mk [Char.ofNat (65 + a), Char.ofNat (65 + b),
          Char.ofNat (48 + i), Char.ofNat (48 + j)] := by
  unfold sprintfCode letter
  rw [repr_digit i hi, repr_digit j hj]
  apply String.ext
  simp [String.singleton]

theorem sprintfCode_inj (a b i j a' b' i' j' : Nat)
    (ha : a < 26) (hb : b < 26) (hi : i < 10) (hj : j < 10)
    (ha' : a' < 26) (hb' : b' < 26) (hi' : i' < 10) (hj' : j' < 10)
    (h : sprintfCode (letter a) (letter b) i j = sprintfCode (letter a') (letter b') i' j') :
    a = a' ∧ b = b' ∧ i = i' ∧ j = j' := by
  rw [sprintfCode_chars a b i j hi hj, sprintfCode_chars a' b' i' j' hi' hj'] at h
  have h' := congrArg String.data h
  simp only [List.cons.injEq, and_true] at h'
  obtain ⟨h1, h2, h3, h4⟩ := h'
  exact ⟨upperChar_inj a ha a' ha' h1, upperChar_inj b hb b' hb' h2,
    digitChar_inj i hi i' hi' h3, digitChar_inj j hj j' hj' h4⟩

theorem codeAt_inj (n m : Nat) (hn : n < 67600) (hm : m < 67600)
    (h : codeAt n = codeAt m) : n = m := by
  unfold codeAt at h
  have := sprintfCode_inj _ _ _ _ _ _ _ _ (by omega) (by omega) (by omega) (by omega)
    (by omega) (by omega) (by omega) (by omega) h
  omega

/-! ## Maps -/

theorem mapGet_eq_none_iff (m : Catalog) (k : String) :
    mapGet m k = none ↔ k ∉ mapKeys m := by
  induction m with
  | nil => simp [mapGet, mapKeys]
  | cons e rest ih =>
    obtain ⟨k', v⟩ := e
    by_cases hk : k' = k
    · simp [mapGet, mapKeys, hk]
    · have hk' : ¬ k = k' := fun h => hk h.symm
      simp only [mapKeys] at ih
      simp [mapGet, mapKeys, hk, hk', ih]

theorem mapGet_of_mem (m : Catalog) (k : String) (v : Option Product)
    (hnd : (mapKeys m).Nodup) (h : (k, v) ∈ m) : mapGet m k = some v := by
  induction m with
  | nil => simp at h
  | cons e rest ih =>
    obtain ⟨k', v'⟩ := e
    simp only [mapKeys, List.map_cons, List.nodup_cons] at hnd
    rcases List.mem_cons.mp h with h1 | h1
    · simp only [Prod.mk.injEq] at h1
      simp [mapGet, h1.1, h1.2]
    · have hne : ¬ k' = k := by
        intro hk
        apply hnd.1
        rw [hk]
        exact List.mem_map_of_mem Prod.fst h1
      simp only [mapGet, hne, if_false]
      exact ih hnd.2 h1

theorem mem_of_mapGet (m : Catalog) (k : String) (v : Option Product)
    (h : mapGet m k = some v) : (k, v) ∈ m := by
  induction m with
  | nil => simp [mapGet] at h
  | cons e rest ih =>
    obtain ⟨k', v'⟩ := e
    by_cases hk : k' = k
    · simp only [mapGet, hk, if_true, Option.some.injEq] at h
      simp [hk, h]
    · simp only [mapGet, hk, if_false] at h
      exact List.mem_cons_of_mem _ (ih h)

theorem mapSet_of_not_mem (m : Catalog) (k : String) (v : Option Product)
    (h : k ∉ mapKeys m) : mapSet m k v = m ++ [(k, v)] := by
  induction m with
  | nil => rfl
  | cons e rest ih =>
    obtain ⟨k', v'⟩ := e
    simp only [mapKeys, List.map_cons, List.mem_cons, not_or] at h
    have hne : ¬ k' = k := fun hk => h.1 hk.symm
    simp only [mapSet, hne, if_false, List.cons_append]
    rw [ih h.2]

/-! ## The generated catalog, entry by entry -/

theorem mapKeys_map_entryAt (l : List Nat) : mapKeys (l.map entryAt) = l.map codeAt := by
  simp [mapKeys, entryAt, Function.comp_def]

theorem nodup_map_codeAt (N : Nat) (hN : N ≤ 67600) : ((List.range N).map codeAt).Nodup := by
  apply List.Nodup.map_on _ (List.nodup_range N)
  intro x hx y hy h
  have hx' := List.mem_range.mp hx
  have hy' := List.mem_range.mp hy
  exact codeAt_inj x y (by omega) (by omega) h

theorem gen_fold (N : Nat) (hN : N ≤ 67600) :
    (List.range N).foldl
      (fun st n => genBody (letter (n / 2600)) (letter (n / 100 % 26)) (n / 10 % 10) (n % 10) st)
      (([] : Catalog), 0)
      = ((List.range N).map entryAt, N) := by
  induction N with
  | zero => rfl
  | succ N ih =>
    rw [List.range_succ, List.foldl_append, ih (by omega)]
    simp only [List.foldl_cons, List.foldl_nil, genBody, List.map_append, List.map_cons,
      List.map_nil]
    have hnot : codeAt N ∉ mapKeys ((List.range N).map entryAt) := by
      rw [mapKeys_map_entryAt]
      intro hmem
      obtain ⟨x, hx, hxe⟩ := List.mem_map.mp hmem
      have hx' := List.mem_range.mp hx
      have := codeAt_inj x N (by omega) (by omega) hxe
      omega
    have hset := mapSet_of_not_mem _ (codeAt N) (some ⟨codeAt N, sprintfName N⟩) hnot
    simp only [codeAt] at hset
    rw [hset]
    rfl

/-- The generated catalog is the list of the 67600 entries `entryAt n`, in
generation order, whatever the map held before. -/
theorem GenerateProduct_eq (old : Catalog) :
    GenerateProduct old = (List.range 67600).map entryAt := by
  unfold GenerateProduct generateAndSetProductToRedis
  rw [genLoops_eq, gen_fold 67600 (Nat.le_refl _)]

theorem generatedCodes_eq : generatedCodes = (List.range 67600).map codeAt := by
  unfold generatedCodes
  rw [genLoops_eq]
  have h : ∀ N, (List.range N).foldl
      (fun st n => st ++
        [sprintfCode (letter (n / 2600)) (letter (n / 100 % 26)) (n / 10 % 10) (n % 10)])
      ([] : List String) = (List.range N).map codeAt := by
    intro N
    induction N with
    | zero => rfl
    | succ N ih =>
      rw [List.range_succ, List.foldl_append, ih]
      simp [codeAt]
  exact h 67600

theorem mapGet_generated (old : Catalog) (n : Nat) (hn : n < 67600) :
    mapGet (GenerateProduct old) (codeAt n) = some (some ⟨codeAt n, sprintfName n⟩) := by
  rw [GenerateProduct_eq]
  apply mapGet_of_mem
  · rw [mapKeys_map_entryAt]
    exact nodup_map_codeAt 67600 (Nat.le_refl _)
  · exact List.mem_map.mpr ⟨n, List.mem_range.mpr hn, rfl⟩

theorem mem_keys_generated (old : Catalog) (k : String) :
    k ∈ mapKeys (GenerateProduct old) ↔ ∃ n, n < 67600 ∧ k = codeAt n := by
  rw [GenerateProduct_eq, mapKeys_map_entryAt]
  constructor
  · intro h
    obtain ⟨n, hn, he⟩ := List.mem_map.mp h
    exact ⟨n, List.mem_range.mp hn, he.symm⟩
  · rintro ⟨n, hn, rfl⟩
    exact List.mem_map.mpr ⟨n, List.mem_range.mpr hn, rfl⟩

/-! ## The shape check, characterised -/

theorem run_shapeRegex_false (lo1 hi1 lo2 hi2 : Char) (l : List Char) :
    (shapeRegex lo1 hi1 lo2 hi2).run (false, l) = [] := by
  simp [shapeRegex, Regex.run]

theorem mem_run_charRange (lo hi : Char) (p q : Bool × List Char) :
    q ∈ (Regex.charRange lo hi).run p ↔
      ∃ c, p.2 = c :: q.2 ∧ q.1 = false ∧ lo ≤ c ∧ c ≤ hi := by
  obtain ⟨f, l⟩ := p
  obtain ⟨f', l'⟩ := q
  cases l with
  | nil => simp [Regex.run]
  | cons c rest =>
    by_cases h : lo ≤ c ∧ c ≤ hi
    · simp only [Regex.run, h, and_self, if_true, List.mem_singleton, Prod.mk.injEq,
        List.cons.injEq]
      constructor
      · rintro ⟨h1, h2⟩
        exact ⟨c, ⟨rfl, h2.symm⟩, h1, h.1, h.2⟩
      · rintro ⟨c', ⟨hc, hr⟩, h1, _⟩
        exact ⟨h1, hr.symm⟩
    · simp only [Regex.run, h, if_false, List.not_mem_nil, List.cons.injEq, false_iff,
        not_exists]
      rintro c' ⟨⟨hc, _⟩, _, h3⟩
      exact h (hc ▸ h3)

theorem mem_run_times_two (r : Regex) (p q : Bool × List Char) :
    q ∈ (Regex.times r 2).run p ↔ ∃ m, m ∈ r.run p ∧ q ∈ r.run m := by
  simp [Regex.run, iterate, List.mem_flatMap]

theorem mem_run_cat (a b : Regex) (p q : Bool × List Char) :
    q ∈ (Regex.cat a b).run p ↔ ∃ m, m ∈ a.run p ∧ q ∈ b.run m := by
  simp [Regex.run, List.mem_flatMap]

theorem mem_run_endText (p q : Bool × List Char) :
    q ∈ Regex.endText.run p ↔ q = p ∧ p.2 = [] := by
  obtain ⟨f, l⟩ := p
  cases l <;> simp [Regex.run]

theorem mem_run_two_classes (lo hi : Char) (p q : Bool × List Char) :
    q ∈ (Regex.times (.charRange lo hi) 2).run p ↔
      ∃ a b, p.2 = a :: b :: q.2 ∧ q.1 = false ∧ (lo ≤ a ∧ a ≤ hi) ∧ (lo ≤ b ∧ b ≤ hi) := by
  rw [mem_run_times_two]
  constructor
  · rintro ⟨m, hm, hq⟩
    obtain ⟨a, ha, _, ha'⟩ := (mem_run_charRange lo hi p m).mp hm
    obtain ⟨b, hb, hf, hb'⟩ := (mem_run_charRange lo hi m q).mp hq
    exact ⟨a, b, by rw [ha, hb], hf, ha', hb'⟩
  · rintro ⟨a, b, hp, hf, ha, hb⟩
    refine ⟨(false, b :: q.2), ?_, ?_⟩
    · exact (mem_run_charRange lo hi p _).mpr ⟨a, hp, rfl, ha⟩
    · exact (mem_run_charRange lo hi _ q).mpr ⟨b, rfl, hf, hb⟩

theorem run_shapeRegex_true (lo1 hi1 lo2 hi2 : Char) (l : List Char) :
    ((shapeRegex lo1 hi1 lo2 hi2).run (true, l)).isEmpty = false ↔
      ∃ a b c d : Char, l = [a, b, c, d] ∧
        (lo1 ≤ a ∧ a ≤ hi1) ∧ (lo1 ≤ b ∧ b ≤ hi1) ∧
        (lo2 ≤ c ∧ c ≤ hi2) ∧ (lo2 ≤ d ∧ d ≤ hi2) := by
  have hbegin : Regex.beginText.run (true, l) = [(true, l)] := rfl
  constructor
  · intro h
    have hne : (shapeRegex lo1 hi1 lo2 hi2).run (true, l) ≠ [] := by
      intro h0
      rw [h0] at h
      simp at h
    obtain ⟨q, hq⟩ := List.exists_mem_of_ne_nil _ hne
    unfold shapeRegex at hq
    obtain ⟨m0, hm0, hq⟩ := (mem_run_cat _ _ _ _).mp hq
    rw [hbegin, List.mem_singleton] at hm0
    subst hm0
    obtain ⟨m1, hm1, hq⟩ := (mem_run_cat _ _ _ _).mp hq
    obtain ⟨m2, hm2, hq⟩ := (mem_run_cat _ _ _ _).mp hq
    obtain ⟨a, b, hab, _, ha, hb⟩ := (mem_run_two_classes lo1 hi1 _ _).mp hm1
    obtain ⟨c, d, hcd, _, hc, hd⟩ := (mem_run_two_classes lo2 hi2 _ _).mp hm2
    obtain ⟨_, hend⟩ := (mem_run_endText _ _).mp hq
    refine ⟨a, b, c, d, ?_, ha, hb, hc, hd⟩
    simp only at hab
    rw [hab, hcd, hend]
  · rintro ⟨a, b, c, d, rfl, ha, hb, hc, hd⟩
    have hmem : ((false, []) : Bool × List Char) ∈
        (shapeRegex lo1 hi1 lo2 hi2).run (true, [a, b, c, d]) := by
      unfold shapeRegex
      refine (mem_run_cat _ _ _ _).mpr ⟨(true, [a, b, c, d]), ?_, ?_⟩
      · rw [hbegin]
        exact List.mem_singleton.mpr rfl
      refine (mem_run_cat _ _ _ _).mpr ⟨(false, [c, d]), ?_, ?_⟩
      · exact (mem_run_two_classes lo1 hi1 _ _).mpr ⟨a, b, rfl, rfl, ha, hb⟩
      refine (mem_run_cat _ _ _ _).mpr ⟨(false, []), ?_, ?_⟩
      · exact (mem_run_two_classes lo2 hi2 _ _).mpr ⟨c, d, rfl, rfl, hc, hd⟩
      · exact (mem_run_endText _ _).mpr ⟨rfl, rfl⟩
    cases hrun : (shapeRegex lo1 hi1 lo2 hi2).run (true, [a, b, c, d]) with
    | nil => rw [hrun] at hmem; simp at hmem
    | cons x xs => rfl

theorem run_codeRegex_false (l : List Char) : codeRegex.run (false, l) = [] :=
  run_shapeRegex_false 'A' 'Z' '0' '9' l

theorem run_codeRegex_true (l : List Char) :
    (codeRegex.run (true, l)).isEmpty = false ↔
      ∃ a b c d : Char, l = [a, b, c, d] ∧
        ('A' ≤ a ∧ a ≤ 'Z') ∧ ('A' ≤ b ∧ b ≤ 'Z') ∧
        ('0' ≤ c ∧ c ≤ '9') ∧ ('0' ≤ d ∧ d ≤ '9') :=
  run_shapeRegex_true 'A' 'Z' '0' '9' l

theorem matchString_iff (s : String) : MatchString codeRegex s = true ↔ IsCodeShape s := by
  unfold MatchString IsCodeShape
  rw [List.any_eq_true]
  constructor
  · rintro ⟨i, _, hi⟩
    cases i with
    | zero =>
      simp only [beq_self_eq_true, List.drop_zero, Bool.not_eq_true'] at hi
      obtain ⟨a, b, c, d, hl, h⟩ := (run_codeRegex_true s.data).mp hi
      exact ⟨a, b, c, d, String.ext hl, h⟩
    | succ i =>
      have hf : (i + 1 == 0) = false := rfl
      rw [hf, run_codeRegex_false] at hi
      simp at hi
  · rintro ⟨a, b, c, d, hs, h⟩
    refine ⟨0, List.mem_range.mpr (Nat.succ_pos _), ?_⟩
    simp only [beq_self_eq_true, List.drop_zero, Bool.not_eq_true']
    exact (run_codeRegex_true s.data).mpr ⟨a, b, c, d, congrArg String.data hs, h⟩

theorem isCodeShape_iff_codeAt (s : String) :
    IsCodeShape s ↔ ∃ n, n < 67600 ∧ s = codeAt n := by
  constructor
  · rintro ⟨a, b, c, d, rfl, ha, hb, hc, hd⟩
    obtain ⟨k1, hk1, rfl⟩ := (upper_iff a).mp ha
    obtain ⟨k2, hk2, rfl⟩ := (upper_iff b).mp hb
    obtain ⟨i, hi, rfl⟩ := (digit_iff c).mp hc
    obtain ⟨j, hj, rfl⟩ := (digit_iff d).mp hd
    refine ⟨2600 * k1 + 100 * k2 + 10 * i + j, by omega, ?_⟩
    unfold codeAt
    have h1 : (2600 * k1 + 100 * k2 + 10 * i + j) / 2600 = k1 := by omega
    have h2 : (2600 * k1 + 100 * k2 + 10 * i + j) / 100 % 26 = k2 := by omega
    have h3 : (2600 * k1 + 100 * k2 + 10 * i + j) / 10 % 10 = i := by omega
    have h4 : (2600 * k1 + 100 * k2 + 10 * i + j) % 10 = j := by omega
    rw [h1, h2, h3, h4, sprintfCode_chars k1 k2 i j hi hj]
  · rintro ⟨n, hn, rfl⟩
    unfold codeAt
    rw [sprintfCode_chars _ _ _ _ (by omega) (by omega)]
    exact ⟨_, _, _, _, rfl,
      (upper_iff _).mpr ⟨n / 2600, by omega, rfl⟩,
      (upper_iff _).mpr ⟨n / 100 % 26, by omega, rfl⟩,
      (digit_iff _).mpr ⟨n / 10 % 10, by omega, rfl⟩,
      (digit_iff _).mpr ⟨n % 10, by omega, rfl⟩⟩

theorem isCodeShape_ne_empty (s : String) (h : IsCodeShape s) : s ≠ "" := by
  obtain ⟨a, b, c, d, rfl, _⟩ := h
  intro h0
  have := congrArg String.data h0
  simp at this

/-! ## Decimal rendering -/

theorem digitChar_value : ∀ d, d < 10 → (Nat.digitChar d).toNat - 48 = d := by
  decide

theorem foldl_toDigitsCore (fuel : Nat) : ∀ (n : Nat) (ds : List Char), n < fuel →
    (Nat.toDigitsCore 10 fuel n ds).foldl (fun acc c => 10 * acc + (c.toNat - 48)) 0
      = ds.foldl (fun acc c => 10 * acc + (c.toNat - 48)) n := by
  induction fuel with
  | zero => intro n ds h; omega
  | succ fuel ih =>
    intro n ds h
    simp only [Nat.toDigitsCore]
    have hd := digitChar_value (n % 10) (Nat.mod_lt n (by decide))
    by_cases h0 : n / 10 = 0
    · simp only [h0, if_true, List.foldl_cons, hd]
      have : 10 * 0 + n % 10 = n := by omega
      rw [this]
    · simp only [h0, if_false]
      rw [ih (n / 10) _ (by omega)]
      simp only [List.foldl_cons, hd]
      have : 10 * (n / 10) + n % 10 = n := by omega
      rw [this]

theorem digitsValue_repr (n : Nat) : digitsValue (Nat.repr n).data = n := by
  unfold digitsValue Nat.repr Nat.toDigits
  simp only [List.asString]
  rw [foldl_toDigitsCore (n + 1) n [] (Nat.lt_succ_self n)]
  rfl

theorem repr_inj (n m : Nat) (h : Nat.repr n = Nat.repr m) : n = m := by
  have := congrArg (fun s => digitsValue s.data) h
  simpa [digitsValue_repr] using this

theorem sprintfName_inj (n m : Nat) (h : sprintfName n = sprintfName m) : n = m := by
  unfold sprintfName at h
  have h1 := congrArg String.data h
  simp only [String.data_append] at h1
  have h2 := List.append_cancel_left h1
  exact repr_inj n m (String.ext h2)

/-! ## The handler, case by case -/

theorem handleProduct_invalid (g : Globals) (r : Request)
    (h : MatchString codeRegex (r.FormValue "code") = false) :
    handleProduct g r = some (.error "code is invalid" StatusBadRequest, g) := by
  simp [handleProduct, h]

theorem handleProduct_panic (g : Globals) (r : Request)
    (h : MatchString codeRegex (r.FormValue "code") = true)
    (hf : findProduct g.products (r.FormValue "code") = none) :
    handleProduct g r = none := by
  simp [handleProduct, h, hf]

theorem handleProduct_not_found (g : Globals) (r : Request) (p : Product)
    (h : MatchString codeRegex (r.FormValue "code") = true)
    (hf : findProduct g.products (r.FormValue "code") = some p) (hc : p.Code = "") :
    handleProduct g r = some (.error "data not found" StatusBadRequest, g) := by
  simp [handleProduct, h, hf, hc]

theorem handleProduct_found (g : Globals) (r : Request) (p : Product)
    (h : MatchString codeRegex (r.FormValue "code") = true)
    (hf : findProduct g.products (r.FormValue "code") = some p) (hc : p.Code ≠ "") :
    handleProduct g r
      = some (.ok [("Content-Type", "text/html; charset=utf-8")]
            ("<font size=\"10\">Product Code : " ++ p.Code ++ " Name :" ++ p.Name ++ "</font>"),
          ⟨g.products,
            "<font size=\"10\">Product Code : " ++ p.Code ++ " Name :" ++ p.Name ++ "</font>"⟩) := by
  simp [handleProduct, h, hf, hc]

theorem findProduct_of_get (m : Catalog) (code : String) (p : Product)
    (h : mapGet m code = some (some p)) : findProduct m code = some p := by
  unfold findProduct
  rw [h]

theorem GenerateProduct_indep (a b : Catalog) : GenerateProduct a = GenerateProduct b := by
  unfold GenerateProduct
  rfl

theorem findProduct_cases (m : Catalog) (code : String) :
    (code ∉ mapKeys m ∧ findProduct m code = some Product.zero) ∨
    (mapGet m code = some none ∧ findProduct m code = none) ∨
    (∃ p, mapGet m code = some (some p) ∧ findProduct m code = some p) := by
  unfold findProduct
  cases hg : mapGet m code with
  | none => exact Or.inl ⟨(mapGet_eq_none_iff m code).mp hg, rfl⟩
  | some v =>
    cases v with
    | none => exact Or.inr (Or.inl ⟨rfl, rfl⟩)
    | some p => exact Or.inr (Or.inr ⟨p, rfl, rfl⟩)

theorem handleProduct_cases (g : Globals) (r : Request) :
    (MatchString codeRegex (r.FormValue "code") = false ∧
      handleProduct g r = some (.error "code is invalid" StatusBadRequest, g)) ∨
    (MatchString codeRegex (r.FormValue "code") = true ∧
      findProduct g.products (r.FormValue "code") = none ∧ handleProduct g r = none) ∨
    (∃ p : Product, MatchString codeRegex (r.FormValue "code") = true ∧
      findProduct g.products (r.FormValue "code") = some p ∧ p.Code = "" ∧
      handleProduct g r = some (.error "data not found" StatusBadRequest, g)) ∨
    (∃ p : Product, MatchString codeRegex (r.FormValue "code") = true ∧
      findProduct g.products (r.FormValue "code") = some p ∧ p.Code ≠ "" ∧
      handleProduct g r
        = some (.ok [("Content-Type", "text/html; charset=utf-8")]
            ("<font size=\"10\">Product Code : " ++ p.Code ++ " Name :" ++ p.Name ++ "</font>"),
          ⟨g.products,
            "<font size=\"10\">Product Code : " ++ p.Code ++ " Name :" ++ p.Name
              ++ "</font>"⟩)) := by
  cases hm : MatchString codeRegex (r.FormValue "code") with
  | false => exact Or.inl ⟨rfl, handleProduct_invalid g r hm⟩
  | true =>
    cases hf : findProduct g.products (r.FormValue "code") with
    | none => exact Or.inr (Or.inl ⟨rfl, rfl, handleProduct_panic g r hm hf⟩)
    | some p =>
      by_cases hc : p.Code = ""
      · exact Or.inr (Or.inr (Or.inl ⟨p, rfl, rfl, hc, handleProduct_not_found g r p hm hf hc⟩))
      · exact Or.inr (Or.inr (Or.inr ⟨p, rfl, rfl, hc, handleProduct_found g r p hm hf hc⟩))

theorem handleProduct_products (g : Globals) (r : Request) (out : Response × Globals)
    (h : handleProduct g r = some out) : out.2.products = g.products := by
  rcases handleProduct_cases g r with ⟨_, h1⟩ | ⟨_, _, h1⟩ | ⟨p, _, _, _, h1⟩ | ⟨p, _, _, _, h1⟩
  · rw [h1] at h
    rw [← Option.some.inj h]
  · rw [h1] at h
    exact absurd h (by simp)
  · rw [h1] at h
    rw [← Option.some.inj h]
  · rw [h1] at h
    rw [← Option.some.inj h]

theorem handleProduct_reply_indep (m : Catalog) (b1 b2 : String) (r : Request) :
    (handleProduct ⟨m, b1⟩ r).map Prod.fst = (handleProduct ⟨m, b2⟩ r).map Prod.fst := by
  cases hm : MatchString codeRegex (r.FormValue "code") with
  | false =>
    rw [handleProduct_invalid ⟨m, b1⟩ r hm, handleProduct_invalid ⟨m, b2⟩ r hm]
    rfl
  | true =>
    cases hf : findProduct m (r.FormValue "code") with
    | none =>
      rw [handleProduct_panic ⟨m, b1⟩ r hm hf, handleProduct_panic ⟨m, b2⟩ r hm hf]
    | some p =>
      by_cases hc : p.Code = ""
      · rw [handleProduct_not_found ⟨m, b1⟩ r p hm hf hc,
          handleProduct_not_found ⟨m, b2⟩ r p hm hf hc]
        rfl
      · rw [handleProduct_found ⟨m, b1⟩ r p hm hf hc,
          handleProduct_found ⟨m, b2⟩ r p hm hf hc]

theorem mem_generated (old : Catalog) (e : String × Option Product) :
    e ∈ GenerateProduct old ↔ ∃ n, n < 67600 ∧ e = entryAt n := by
  rw [GenerateProduct_eq]
  constructor
  · intro h
    obtain ⟨n, hn, he⟩ := List.mem_map.mp h
    exact ⟨n, List.mem_range.mp hn, he.symm⟩
  · rintro ⟨n, hn, rfl⟩
    exact List.mem_map.mpr ⟨n, List.mem_range.mpr hn, rfl⟩

theorem nodup_keys_generated (old : Catalog) : (mapKeys (GenerateProduct old)).Nodup := by
  rw [GenerateProduct_eq, mapKeys_map_entryAt]
  exact nodup_map_codeAt 67600 (Nat.le_refl _)

/-! ## Claims -/

/-- C1: after `GenerateProduct` the catalog has exactly 67600 entries with
pairwise distinct keys; the 26*26*10*10 codes written by the generation steps
are pairwise distinct, so no step overwrites an entry of an earlier step. -/
theorem catalog_size (old : Catalog) :
    (GenerateProduct old).length = 67600 ∧
    (mapKeys (GenerateProduct old)).Nodup ∧
    generatedCodes.length = 26 * 26 * 10 * 10 ∧
    generatedCodes.Nodup ∧
    mapKeys (GenerateProduct old) = generatedCodes := by
  have hk : mapKeys (GenerateProduct old) = generatedCodes := by
    rw [GenerateProduct_eq, mapKeys_map_entryAt, generatedCodes_eq]
  refine ⟨?_, ?_, ?_, ?_, hk⟩
  · rw [GenerateProduct_eq]; simp
  · rw [hk, generatedCodes_eq]; exact nodup_map_codeAt 67600 (Nat.le_refl _)
  · rw [generatedCodes_eq]; simp
  · rw [generatedCodes_eq]; exact nodup_map_codeAt 67600 (Nat.le_refl _)

/-- C2: the shape check accepts a string exactly when it consists of four
characters, the first two in 'A'..'Z' and the last two in '0'..'9'; the empty
string, lowercase letters, other lengths (a valid code followed by a newline
included) and non-ASCII letters or digits are rejected. -/
theorem shape_check_iff :
    (∀ s : String, MatchString codeRegex s = true ↔ IsCodeShape s) ∧
    MatchString codeRegex "" = false ∧
    MatchString codeRegex "aa00" = false ∧
    MatchString codeRegex "AA0" = false ∧
    MatchString codeRegex "AA000" = false ∧
    MatchString codeRegex "AA00\n" = false ∧
    MatchString codeRegex "ÀÉ00" = false ∧
    MatchString codeRegex "AA００" = false := by
  refine ⟨matchString_iff, ?_, ?_, ?_, ?_, ?_, ?_, ?_⟩ <;> decide

/-- C3: for a code that does not have the shape, whatever the globals, the
reply is `http.Error` with message `code is invalid` and status 400, the
globals are unchanged, and the reply is the same for every other catalog. -/
theorem invalid_code_reply (g : Globals) (r : Request)
    (h : ¬ IsCodeShape (r.FormValue "code")) :
    handleProduct g r = some (.error "code is invalid" 400, g) ∧
    (Response.error "code is invalid" 400).status = 400 ∧
    ∀ g' : Globals, (handleProduct g' r).map Prod.fst = (handleProduct g r).map Prod.fst := by
  have hm : MatchString codeRegex (r.FormValue "code") = false := by
    cases hh : MatchString codeRegex (r.FormValue "code") with
    | false => rfl
    | true => exact absurd ((matchString_iff _).mp hh) h
  refine ⟨handleProduct_invalid g r hm, rfl, ?_⟩
  intro g'
  rw [handleProduct_invalid g r hm, handleProduct_invalid g' r hm]
  rfl

theorem invalid_code_reply_witness :
    handleProduct ⟨[("AA00", some ⟨"AA00", "Product 0"⟩)], "x"⟩ ⟨[("code", "error")]⟩
      = some (.error "code is invalid" 400, ⟨[("AA00", some ⟨"AA00", "Product 0"⟩)], "x"⟩) :=
  (invalid_code_reply ⟨[("AA00", some ⟨"AA00", "Product 0"⟩)], "x"⟩ ⟨[("code", "error")]⟩
    (fun h => absurd ((matchString_iff _).mpr h) (by decide))).1

/-- C4: for every catalog and every code of the right shape that is not a key
of the catalog, the reply is `http.Error` with message `data not found` and
status 400. -/
theorem absent_code_reply (g : Globals) (r : Request)
    (h : IsCodeShape (r.FormValue "code"))
    (habs : r.FormValue "code" ∉ mapKeys g.products) :
    handleProduct g r = some (.error "data not found" 400, g) ∧
    (Response.error "data not found" 400).status = 400 := by
  refine ⟨?_, rfl⟩
  apply handleProduct_not_found g r Product.zero ((matchString_iff _).mpr h) _ rfl
  unfold findProduct
  rw [(mapGet_eq_none_iff _ _).mpr habs]

theorem absent_code_reply_witness :
    handleProduct ⟨[], ""⟩ ⟨[("code", "AB11")]⟩
      = some (.error "data not found" 400, ⟨[], ""⟩) :=
  (absent_code_reply ⟨[], ""⟩ ⟨[("code", "AB11")]⟩
    ((matchString_iff _).mp (by decide)) (by decide)).1

/-- C5: for every code `c` of the right shape, the handler run against the
generated catalog replies with status 200, the header `Content-Type` set to
`text/html; charset=utf-8`, and the body `<font size="10">Product Code : c
Name :n</font>`, where `n` is the name of the product stored under `c`. -/
theorem success_reply (old : Catalog) (buf : String) (r : Request)
    (h : IsCodeShape (r.FormValue "code")) :
    ∃ p : Product,
      mapGet (GenerateProduct old) (r.FormValue "code") = some (some p) ∧
      handleProduct ⟨GenerateProduct old, buf⟩ r
        = some (.ok [("Content-Type", "text/html; charset=utf-8")]
            ("<font size=\"10\">Product Code : " ++ r.FormValue "code" ++ " Name :"
              ++ p.Name ++ "</font>"),
            ⟨GenerateProduct old,
              "<font size=\"10\">Product Code : " ++ r.FormValue "code" ++ " Name :"
                ++ p.Name ++ "</font>"⟩) ∧
      (Response.ok [("Content-Type", "text/html; charset=utf-8")]
            ("<font size=\"10\">Product Code : " ++ r.FormValue "code" ++ " Name :"
              ++ p.Name ++ "</font>")).status = 200 := by
  obtain ⟨n, hn, hc⟩ := (isCodeShape_iff_codeAt _).mp h
  have hget := mapGet_generated old n hn
  rw [← hc] at hget
  generalize GenerateProduct old = G at hget ⊢
  have hf := findProduct_of_get G _ _ hget
  have hfound := handleProduct_found ⟨G, buf⟩ r ⟨r.FormValue "code", sprintfName n⟩
    ((matchString_iff _).mpr h) hf (isCodeShape_ne_empty _ h)
  exact ⟨⟨r.FormValue "code", sprintfName n⟩, hget, hfound, rfl⟩

theorem success_reply_witness :
    (∃ p : Product,
      mapGet (GenerateProduct []) "ZZ99" = some (some p) ∧
      handleProduct ⟨GenerateProduct [], ""⟩ ⟨[("code", "ZZ99")]⟩
        = some (.ok [("Content-Type", "text/html; charset=utf-8")]
            ("<font size=\"10\">Product Code : " ++ "ZZ99" ++ " Name :"
              ++ p.Name ++ "</font>"),
            ⟨GenerateProduct [],
              "<font size=\"10\">Product Code : " ++ "ZZ99" ++ " Name :"
                ++ p.Name ++ "</font>"⟩) ∧
      (Response.ok [("Content-Type", "text/html; charset=utf-8")]
            ("<font size=\"10\">Product Code : " ++ "ZZ99" ++ " Name :"
              ++ p.Name ++ "</font>")).status = 200) ∧
    (∃ p : Product,
      mapGet (GenerateProduct []) "AA11" = some (some p) ∧
      handleProduct ⟨GenerateProduct [], "x"⟩ ⟨[("code", "AA11")]⟩
        = some (.ok [("Content-Type", "text/html; charset=utf-8")]
            ("<font size=\"10\">Product Code : " ++ "AA11" ++ " Name :"
              ++ p.Name ++ "</font>"),
            ⟨GenerateProduct [],
              "<font size=\"10\">Product Code : " ++ "AA11" ++ " Name :"
                ++ p.Name ++ "</font>"⟩) ∧
      (Response.ok [("Content-Type", "text/html; charset=utf-8")]
            ("<font size=\"10\">Product Code : " ++ "AA11" ++ " Name :"
              ++ p.Name ++ "</font>")).status = 200) :=
  ⟨success_reply [] "" ⟨[("code", "ZZ99")]⟩ ((matchString_iff _).mp (by decide)),
   success_reply [] "x" ⟨[("code", "AA11")]⟩ ((matchString_iff _).mp (by decide))⟩

theorem ch_getD : ∀ k, k < 26 → ch.getD k "" = letter k := by
  decide

/-- C6: in the generated catalog the product stored under the code made of the
letters `ch[i1]`, `ch[i2]` and the digits `d1`, `d2` has that code and the name
`Product N` with `N = 2600*i1 + 100*i2 + 10*d1 + d2` in decimal, and `N` is the
position (from 0) of the code in generation order. -/
theorem name_of_code (old : Catalog) (i1 i2 d1 d2 : Nat)
    (h1 : i1 < 26) (h2 : i2 < 26) (h3 : d1 < 10) (h4 : d2 < 10) :
    mapGet (GenerateProduct old) (sprintfCode (ch.getD i1 "") (ch.getD i2 "") d1 d2)
      = some (some ⟨sprintfCode (ch.getD i1 "") (ch.getD i2 "") d1 d2,
          "Product " ++ Nat.repr (2600 * i1 + 100 * i2 + 10 * d1 + d2)⟩) ∧
    generatedCodes.get? (2600 * i1 + 100 * i2 + 10 * d1 + d2)
      = some (sprintfCode (ch.getD i1 "") (ch.getD i2 "") d1 d2) := by
  have hc : codeAt (2600 * i1 + 100 * i2 + 10 * d1 + d2)
      = sprintfCode (ch.getD i1 "") (ch.getD i2 "") d1 d2 := by
    unfold codeAt
    have e1 : (2600 * i1 + 100 * i2 + 10 * d1 + d2) / 2600 = i1 := by omega
    have e2 : (2600 * i1 + 100 * i2 + 10 * d1 + d2) / 100 % 26 = i2 := by omega
    have e3 : (2600 * i1 + 100 * i2 + 10 * d1 + d2) / 10 % 10 = d1 := by omega
    have e4 : (2600 * i1 + 100 * i2 + 10 * d1 + d2) % 10 = d2 := by omega
    rw [e1, e2, e3, e4, ch_getD i1 h1, ch_getD i2 h2]
  have hn : 2600 * i1 + 100 * i2 + 10 * d1 + d2 < 67600 := by omega
  constructor
  · have := mapGet_generated old _ hn
    rw [hc] at this
    exact this
  · rw [generatedCodes_eq, List.get?_eq_getElem?, List.getElem?_map,
      List.getElem?_range hn, ← hc]
    rfl

theorem name_of_code_witness :
    (mapGet (GenerateProduct []) "AA00" = some (some ⟨"AA00", "Product 0"⟩) ∧
      generatedCodes.get? 0 = some "AA00") ∧
    (mapGet (GenerateProduct []) "ZZ99" = some (some ⟨"ZZ99", "Product 67599"⟩) ∧
      generatedCodes.get? 67599 = some "ZZ99") :=
  ⟨name_of_code [] 0 0 0 0 (by decide) (by decide) (by decide) (by decide),
   name_of_code [] 25 25 9 9 (by decide) (by decide) (by decide) (by decide)⟩

/-- C7: in the generated catalog every entry holds a product (no nil pointer)
whose `Code` field equals the key of the entry. -/
theorem key_eq_code (old : Catalog) (e : String × Option Product)
    (h : e ∈ GenerateProduct old) : ∃ p : Product, e.2 = some p ∧ p.Code = e.1 := by
  rw [GenerateProduct_eq] at h
  obtain ⟨n, _, rfl⟩ := List.mem_map.mp h
  exact ⟨⟨codeAt n, sprintfName n⟩, rfl, rfl⟩

theorem key_eq_code_witness :
    ∃ p : Product, (entryAt 0).2 = some p ∧ p.Code = (entryAt 0).1 :=
  key_eq_code [] (entryAt 0)
    (by rw [GenerateProduct_eq]
        exact List.mem_map.mpr ⟨0, List.mem_range.mpr (by decide), rfl⟩)

/-- C8: for every key of the generated catalog, `findProduct` returns the
product stored under that key, which is the only entry with that key. -/
theorem findProduct_generated (old : Catalog) (code : String)
    (h : code ∈ mapKeys (GenerateProduct old)) :
    ∃ p : Product,
      (code, some p) ∈ GenerateProduct old ∧
      (∀ v, (code, v) ∈ GenerateProduct old → v = some p) ∧
      findProduct (GenerateProduct old) code = some p := by
  obtain ⟨n, hn, rfl⟩ := (mem_keys_generated old code).mp h
  have hget := mapGet_generated old n hn
  have hnd : (mapKeys (GenerateProduct old)).Nodup := by
    rw [GenerateProduct_eq, mapKeys_map_entryAt]
    exact nodup_map_codeAt 67600 (Nat.le_refl _)
  generalize GenerateProduct old = G at hget hnd ⊢
  refine ⟨⟨codeAt n, sprintfName n⟩, mem_of_mapGet _ _ _ hget, ?_, findProduct_of_get _ _ _ hget⟩
  intro v hv
  have hv' := mapGet_of_mem _ _ v hnd hv
  rw [hget] at hv'
  exact (Option.some.inj hv').symm

theorem findProduct_generated_witness :
    ∃ p : Product,
      (codeAt 67599, some p) ∈ GenerateProduct [] ∧
      (∀ v, (codeAt 67599, v) ∈ GenerateProduct [] → v = some p) ∧
      findProduct (GenerateProduct []) (codeAt 67599) = some p :=
  findProduct_generated [] (codeAt 67599)
    ((mem_keys_generated [] _).mpr ⟨67599, by decide, rfl⟩)

/-- C9: the catalog after `GenerateProduct` does not depend on the catalog
before the call; every entry of the result is a generated one, so an entry of
the prior state survives only if it is regenerated; and generating twice
gives the same catalog as generating once. -/
theorem generate_independent (old1 old2 : Catalog) :
    GenerateProduct old1 = GenerateProduct old2 ∧
    GenerateProduct old1 = GenerateProduct [] ∧
    (∀ e, e ∈ GenerateProduct old1 ↔ ∃ n, n < 67600 ∧ e = entryAt n) ∧
    GenerateProduct (GenerateProduct old1) = GenerateProduct old1 := by
  refine ⟨GenerateProduct_indep _ _, GenerateProduct_indep _ _, ?_, GenerateProduct_indep _ _⟩
  exact mem_generated old1

/-- C10: whenever `handleProduct` returns, the catalog after the call is the
catalog before it, for every catalog, buffer and request. -/
theorem handler_keeps_catalog (g : Globals) (r : Request) (out : Response × Globals)
    (h : handleProduct g r = some out) : out.2.products = g.products :=
  handleProduct_products g r out h

theorem handler_keeps_catalog_witness :
    handleProduct ⟨[("AB11", some ⟨"AB11", "n"⟩)], "old"⟩ ⟨[("code", "AB11")]⟩
      = some (.ok successHeader (successBody "AB11" "n"),
          ⟨[("AB11", some ⟨"AB11", "n"⟩)], successBody "AB11" "n"⟩) ∧
    (Response.ok successHeader (successBody "AB11" "n"),
      (⟨[("AB11", some ⟨"AB11", "n"⟩)], successBody "AB11" "n"⟩ : Globals)).2.products
      = [("AB11", some ⟨"AB11", "n"⟩)] :=
  ⟨by decide,
   handler_keeps_catalog ⟨[("AB11", some ⟨"AB11", "n"⟩)], "old"⟩ ⟨[("code", "AB11")]⟩
    (Response.ok successHeader (successBody "AB11" "n"),
      ⟨[("AB11", some ⟨"AB11", "n"⟩)], successBody "AB11" "n"⟩) (by decide)⟩

/-- C11: in the generated catalog distinct codes have distinct names, the
names are exactly the strings `Product n` with `n < 67600`, and each of these
names is carried by exactly one entry (the keys being pairwise distinct). -/
theorem names_unique (old : Catalog) :
    (∀ k1 k2 p1 p2, (k1, some p1) ∈ GenerateProduct old → (k2, some p2) ∈ GenerateProduct old →
      k1 ≠ k2 → p1.Name ≠ p2.Name) ∧
    (∀ name : String,
      (∃ k p, (k, some p) ∈ GenerateProduct old ∧ p.Name = name) ↔
        ∃ n, n < 67600 ∧ name = "Product " ++ Nat.repr n) ∧
    (∀ n, n < 67600 →
      ∃! e, e ∈ GenerateProduct old ∧ ∃ p, e.2 = some p ∧ p.Name = "Product " ++ Nat.repr n) ∧
    (mapKeys (GenerateProduct old)).Nodup := by
  refine ⟨?_, ?_, ?_, nodup_keys_generated old⟩
  · intro k1 k2 p1 p2 h1 h2 hne hname
    obtain ⟨n1, _, e1⟩ := (mem_generated old _).mp h1
    obtain ⟨n2, _, e2⟩ := (mem_generated old _).mp h2
    simp only [entryAt, Prod.mk.injEq, Option.some.injEq] at e1 e2
    obtain ⟨hk1, hp1⟩ := e1
    obtain ⟨hk2, hp2⟩ := e2
    rw [hp1, hp2] at hname
    have := sprintfName_inj n1 n2 hname
    apply hne
    rw [hk1, hk2, this]
  · intro name
    constructor
    · rintro ⟨k, p, hmem, hname⟩
      obtain ⟨n, hn, e⟩ := (mem_generated old _).mp hmem
      simp only [entryAt, Prod.mk.injEq, Option.some.injEq] at e
      refine ⟨n, hn, ?_⟩
      rw [← hname, e.2]
      rfl
    · rintro ⟨n, hn, rfl⟩
      exact ⟨codeAt n, ⟨codeAt n, sprintfName n⟩, (mem_generated old _).mpr ⟨n, hn, rfl⟩, rfl⟩
  · intro n hn
    refine ⟨entryAt n, ⟨(mem_generated old _).mpr ⟨n, hn, rfl⟩, _, rfl, rfl⟩, ?_⟩
    rintro e ⟨hmem, p, hp, hname⟩
    obtain ⟨m, _, rfl⟩ := (mem_generated old _).mp hmem
    simp only [entryAt, Option.some.injEq] at hp
    rw [← hp] at hname
    have : m = n := sprintfName_inj m n hname
    rw [this]

/-- C12: a request without a `code` parameter is handled with the empty
string as code, which fails the shape check: the reply is `http.Error` with
message `code is invalid` and status 400. -/
theorem missing_code_reply (g : Globals) (r : Request)
    (h : ∀ kv, kv ∈ r.form → kv.1 ≠ "code") :
    r.FormValue "code" = "" ∧
    MatchString codeRegex (r.FormValue "code") = false ∧
    handleProduct g r = some (.error "code is invalid" 400, g) ∧
    (Response.error "code is invalid" 400).status = 400 := by
  have hv : r.FormValue "code" = "" := by
    unfold Request.FormValue
    have hnone : r.form.find? (fun kv => decide (kv.1 = "code")) = none := by
      rw [List.find?_eq_none]
      intro kv hkv
      simpa using h kv hkv
    rw [hnone]
  have hm : MatchString codeRegex (r.FormValue "code") = false := by
    rw [hv]
    decide
  exact ⟨hv, hm, handleProduct_invalid g r hm, rfl⟩

theorem missing_code_reply_witness :
    Request.FormValue ⟨[("id", "AA00")]⟩ "code" = "" ∧
    MatchString codeRegex (Request.FormValue ⟨[("id", "AA00")]⟩ "code") = false ∧
    handleProduct ⟨[("AA00", some ⟨"AA00", "Product 0"⟩)], ""⟩ ⟨[("id", "AA00")]⟩
      = some (.error "code is invalid" 400, ⟨[("AA00", some ⟨"AA00", "Product 0"⟩)], ""⟩) ∧
    (Response.error "code is invalid" 400).status = 400 :=
  missing_code_reply ⟨[("AA00", some ⟨"AA00", "Product 0"⟩)], ""⟩ ⟨[("id", "AA00")]⟩
    (by decide)

/-- C13: the keys of the generated catalog are exactly the strings the shape
check accepts; against that catalog the handler always returns, replies with
status 200 exactly when the code has the shape, and never replies
`data not found`. -/
theorem keys_are_shapes (old : Catalog) :
    (∀ k : String, k ∈ mapKeys (GenerateProduct old) ↔ MatchString codeRegex k = true) ∧
    (∀ (buf : String) (r : Request),
      ∃ out, handleProduct ⟨GenerateProduct old, buf⟩ r = some out ∧
        (out.1.status = 200 ↔ MatchString codeRegex (r.FormValue "code") = true) ∧
        (out.1.status = 200 ∨ out.1 = .error "code is invalid" 400) ∧
        ∀ code, out.1 ≠ .error "data not found" code) := by
  have hkeys : ∀ k : String,
      k ∈ mapKeys (GenerateProduct old) ↔ MatchString codeRegex k = true := by
    intro k
    rw [mem_keys_generated, matchString_iff, isCodeShape_iff_codeAt]
  refine ⟨hkeys, ?_⟩
  intro buf r
  cases hm : MatchString codeRegex (r.FormValue "code") with
  | false =>
    refine ⟨_, handleProduct_invalid _ r hm, ?_, Or.inr rfl, ?_⟩
    · simp [Response.status, StatusBadRequest]
    · intro code hcode
      simp only [Response.error.injEq] at hcode
      exact absurd hcode.1 (by decide)
  | true =>
    have hshape := (matchString_iff _).mp hm
    obtain ⟨n, hn, hc⟩ := (isCodeShape_iff_codeAt _).mp hshape
    have hget := mapGet_generated old n hn
    rw [← hc] at hget
    generalize GenerateProduct old = G at hget ⊢
    have hf := findProduct_of_get G _ _ hget
    have hfound := handleProduct_found ⟨G, buf⟩ r ⟨r.FormValue "code", sprintfName n⟩
      hm hf (isCodeShape_ne_empty _ hshape)
    refine ⟨_, hfound, ?_, Or.inl rfl, ?_⟩
    · simp [Response.status, StatusOK]
    · intro code hcode
      simp at hcode

/-- C14: for every catalog and every code of the right shape, the handler
replies `data not found` exactly when `findProduct` returns a product with an
empty `Code`, that is when the code is not a key or the product stored under
it has an empty `Code`; a key whose product has an empty `Code` is reported as
not found, and a success body renders the `Code` field of the stored product,
not the requested code. -/
theorem not_found_iff_empty_code (g : Globals) (r : Request)
    (h : IsCodeShape (r.FormValue "code")) :
    (handleProduct g r = some (.error "data not found" 400, g) ↔
      ∃ p, findProduct g.products (r.FormValue "code") = some p ∧ p.Code = "") ∧
    ((∃ p, findProduct g.products (r.FormValue "code") = some p ∧ p.Code = "") ↔
      (r.FormValue "code" ∉ mapKeys g.products ∨
        ∃ p, mapGet g.products (r.FormValue "code") = some (some p) ∧ p.Code = "")) ∧
    (∀ p, mapGet g.products (r.FormValue "code") = some (some p) → p.Code = "" →
      handleProduct g r = some (.error "data not found" 400, g)) ∧
    (∀ header body g', handleProduct g r = some (.ok header body, g') →
      ∃ p, mapGet g.products (r.FormValue "code") = some (some p) ∧
        body = "<font size=\"10\">Product Code : " ++ p.Code ++ " Name :" ++ p.Name
          ++ "</font>") := by
  have hm := (matchString_iff _).mpr h
  have hfind : (∃ p, findProduct g.products (r.FormValue "code") = some p ∧ p.Code = "") ↔
      (r.FormValue "code" ∉ mapKeys g.products ∨
        ∃ p, mapGet g.products (r.FormValue "code") = some (some p) ∧ p.Code = "") := by
    rcases findProduct_cases g.products (r.FormValue "code") with
      ⟨h1, h2⟩ | ⟨h1, h2⟩ | ⟨p, h1, h2⟩
    · constructor
      · intro _
        exact Or.inl h1
      · intro _
        exact ⟨Product.zero, h2, rfl⟩
    · constructor
      · rintro ⟨p, hp, _⟩
        rw [h2] at hp
        exact absurd hp (by simp)
      · rintro (hk | ⟨p, hp, _⟩)
        · rw [(mapGet_eq_none_iff _ _).mpr hk] at h1
          exact absurd h1 (by simp)
        · rw [h1] at hp
          exact absurd hp (by simp)
    · constructor
      · rintro ⟨q, hq, hc⟩
        rw [h2] at hq
        exact Or.inr ⟨p, h1, by rw [Option.some.inj hq]; exact hc⟩
      · rintro (hk | ⟨q, hq, hc⟩)
        · rw [(mapGet_eq_none_iff _ _).mpr hk] at h1
          exact absurd h1 (by simp)
        · rw [h1] at hq
          exact ⟨p, h2, by rw [Option.some.inj (Option.some.inj hq)]; exact hc⟩
  refine ⟨?_, hfind, ?_, ?_⟩
  · rcases handleProduct_cases g r with
      ⟨h0, _⟩ | ⟨_, hf, h1⟩ | ⟨p, _, hf, hc, h1⟩ | ⟨p, _, hf, hc, h1⟩
    · rw [hm] at h0
      exact absurd h0 (by simp)
    · rw [h1, hf]
      simp
    · rw [h1]
      constructor
      · intro _
        exact ⟨p, hf, hc⟩
      · intro _
        rfl
    · rw [h1, hf]
      constructor
      · intro hh
        simp at hh
      · rintro ⟨q, hq, hqc⟩
        rw [← Option.some.inj hq] at hqc
        exact absurd hqc hc
  · intro p hp hc
    exact handleProduct_not_found g r p hm (findProduct_of_get _ _ _ hp) hc
  · intro header body g' hok
    rcases handleProduct_cases g r with
      ⟨h0, _⟩ | ⟨_, _, h1⟩ | ⟨p, _, _, _, h1⟩ | ⟨p, _, hf, hcne, h1⟩
    · rw [hm] at h0
      exact absurd h0 (by simp)
    · rw [h1] at hok
      exact absurd hok (by simp)
    · rw [h1] at hok
      simp at hok
    · rw [h1] at hok
      simp only [Option.some.injEq, Prod.mk.injEq, Response.ok.injEq] at hok
      rcases findProduct_cases g.products (r.FormValue "code") with
        ⟨_, h2⟩ | ⟨_, h2⟩ | ⟨q, hq1, hq2⟩
      · rw [hf] at h2
        have hz : p = Product.zero := Option.some.inj h2
        exact absurd (by rw [hz]; rfl) hcne
      · rw [hf] at h2
        exact absurd h2 (by simp)
      · rw [hf] at hq2
        have hpq : p = q := Option.some.inj hq2
        exact ⟨q, hq1, by rw [← hpq]; exact hok.1.2.symm⟩

theorem not_found_iff_empty_code_witness :
    handleProduct ⟨[("AB11", some ⟨"", "ghost"⟩)], ""⟩ ⟨[("code", "AB11")]⟩
      = some (.error "data not found" 400, ⟨[("AB11", some ⟨"", "ghost"⟩)], ""⟩) ∧
    ∃ p, mapGet [("AB11", some ⟨"ZZ99", "other"⟩)] "AB11" = some (some p) ∧
      "<font size=\"10\">Product Code : ZZ99 Name :other</font>"
        = "<font size=\"10\">Product Code : " ++ p.Code ++ " Name :" ++ p.Name ++ "</font>" :=
  ⟨(not_found_iff_empty_code ⟨[("AB11", some ⟨"", "ghost"⟩)], ""⟩ ⟨[("code", "AB11")]⟩
      ((matchString_iff _).mp (by decide))).2.2.1 ⟨"", "ghost"⟩ (by decide) (by decide),
   (not_found_iff_empty_code ⟨[("AB11", some ⟨"ZZ99", "other"⟩)], ""⟩ ⟨[("code", "AB11")]⟩
      ((matchString_iff _).mp (by decide))).2.2.2
        [("Content-Type", "text/html; charset=utf-8")]
        "<font size=\"10\">Product Code : ZZ99 Name :other</font>"
        ⟨[("AB11", some ⟨"ZZ99", "other"⟩)],
          "<font size=\"10\">Product Code : ZZ99 Name :other</font>"⟩ (by decide)⟩

theorem handleAll_replies (m : Catalog) (rs : List Request) :
    ∀ (b : String) (resps : List Response) (g' : Globals),
      handleAll ⟨m, b⟩ rs = some (resps, g') →
      resps.map some = rs.map (fun q => (handleProduct ⟨m, ""⟩ q).map Prod.fst) := by
  induction rs with
  | nil =>
    intro b resps g' h
    simp only [handleAll, Option.some.injEq, Prod.mk.injEq] at h
    rw [← h.1]
    rfl
  | cons q rs ih =>
    intro b resps g' h
    cases hq : handleProduct ⟨m, b⟩ q with
    | none => simp [handleAll, hq] at h
    | some out =>
      obtain ⟨resp, g1⟩ := out
      have hprod : g1.products = m := handleProduct_products ⟨m, b⟩ q (resp, g1) hq
      obtain ⟨m1, b1⟩ := g1
      simp only at hprod
      subst hprod
      cases hrest : handleAll ⟨m1, b1⟩ rs with
      | none => simp [handleAll, hq, hrest] at h
      | some rest =>
        obtain ⟨resps1, g2⟩ := rest
        simp only [handleAll, hq, hrest, Option.some.injEq, Prod.mk.injEq] at h
        have hih := ih b1 resps1 g2 hrest
        have hfirst := handleProduct_reply_indep m1 b "" q
        rw [hq] at hfirst
        rw [← h.1, List.map_cons, List.map_cons, hih, ← hfirst]
        rfl

/-- C15: the reply of `handleProduct` does not depend on what the shared buffer
`buf` held before the call; hence in a sequence of calls every reply is the
reply the same request gets on its own from an empty buffer, with no bytes of
an earlier body in it. -/
theorem reply_ignores_buffer (m : Catalog) (b1 b2 : String) (r : Request)
    (rs : List Request) :
    (handleProduct ⟨m, b1⟩ r).map Prod.fst = (handleProduct ⟨m, b2⟩ r).map Prod.fst ∧
    (∀ resps g', handleAll ⟨m, b1⟩ rs = some (resps, g') →
      resps.map some = rs.map (fun q => (handleProduct ⟨m, ""⟩ q).map Prod.fst)) :=
  ⟨handleProduct_reply_indep m b1 b2 r, handleAll_replies m rs b1⟩

theorem reply_ignores_buffer_witness :
    handleAll ⟨[("AB11", some ⟨"AB11", "a long product name"⟩), ("AB12", some ⟨"AB12", "b"⟩)],
        "left over"⟩ [⟨[("code", "AB11")]⟩, ⟨[("code", "AB12")]⟩]
      = some ([.ok successHeader (successBody "AB11" "a long product name"),
               .ok successHeader (successBody "AB12" "b")],
          ⟨[("AB11", some ⟨"AB11", "a long product name"⟩), ("AB12", some ⟨"AB12", "b"⟩)],
            successBody "AB12" "b"⟩) ∧
    [Response.ok successHeader (successBody "AB11" "a long product name"),
      Response.ok successHeader (successBody "AB12" "b")].map some
      = [⟨[("code", "AB11")]⟩, ⟨[("code", "AB12")]⟩].map (fun q =>
          (handleProduct ⟨[("AB11", some ⟨"AB11", "a long product name"⟩),
            ("AB12", some ⟨"AB12", "b"⟩)], ""⟩ q).map Prod.fst) :=
  ⟨by decide,
   (reply_ignores_buffer
      [("AB11", some ⟨"AB11", "a long product name"⟩), ("AB12", some ⟨"AB12", "b"⟩)]
      "left over" "" ⟨[("code", "AB11")]⟩
      [⟨[("code", "AB11")]⟩, ⟨[("code", "AB12")]⟩]).2
      [.ok successHeader (successBody "AB11" "a long product name"),
        .ok successHeader (successBody "AB12" "b")]
      ⟨[("AB11", some ⟨"AB11", "a long product name"⟩), ("AB12", some ⟨"AB12", "b"⟩)],
        successBody "AB12" "b"⟩ (by decide)⟩

end ProductLookup
